import Mathlib

/-!
Verification of the trigger resolution engine and config composition engine
of a CI workflow runner, against a shallow embedding of the Go sources.

Trigger resolution is embedded from `models/trigger_map_item.go` and
`cli/trigger_check.go`; config composition is modelled from the written
design (its implementation is exercised only through `configmerge_test.go`).
-/

/-- Embeds a Go `interface{}` trigger condition value. In the source a
condition field may be nil (absent), hold a plain string, or hold a
`TriggerItemConditionRegexValue` wrapper (a struct with a `Regex` string). -/
inductive CondValue where
  | nil : CondValue
  | str (s : String) : CondValue
  | regex (r : String) : CondValue
  deriving DecidableEq, Repr

/-- Embeds the Go `TriggerEventType` string enum from `trigger_map_item.go`:
code-push, pull-request, tag, unknown. -/
inductive TriggerEventType where
  | codePush : TriggerEventType
  | pullRequest : TriggerEventType
  | tag : TriggerEventType
  | unknown : TriggerEventType
  deriving DecidableEq, Repr

/-- Go constant `PullRequestReadyStateDraft`. -/
def pullRequestReadyStateDraft : String := "draft"

/-- Go constant `PullRequestReadyStateConvertedToReadyForReview`. -/
def pullRequestReadyStateConvertedToReadyForReview : String :=
  "converted_to_ready_for_review"

/-- Go constant `defaultDraftPullRequestEnabled = true`. -/
def defaultDraftPullRequestEnabled : Bool := true

/-- Embeds the Go struct `TriggerMapItemModel` of `trigger_map_item.go`.
Condition fields of Go type `interface{}` become `CondValue`; the
`DraftPullRequestEnabled *bool` pointer becomes `Option Bool`. The legacy
model in `models.go` is a field subset of this one. Field defaults are the
Go zero values. -/
structure TriggerMapItemModel where
  type : String := ""
  enabled : Bool := false
  pipelineID : String := ""
  workflowID : String := ""
  pushBranch : CondValue := .nil
  commitMessage : CondValue := .nil
  changedFiles : CondValue := .nil
  tag : CondValue := .nil
  pullRequestSourceBranch : CondValue := .nil
  pullRequestTargetBranch : CondValue := .nil
  draftPullRequestEnabled : Option Bool := none
  pullRequestLabel : CondValue := .nil
  pattern : String := ""
  isPullRequestAllowed : Bool := false
  deriving DecidableEq, Repr

/-- Embeds Go `triggerEventType` (`trigger_map_item.go` lines 460-488).
Returns the classified event type together with the error value
(`none` encodes a nil Go error). Message texts follow the Go format
strings, including the `determin` typo of the final message. -/
def triggerEventType (pushBranch prSourceBranch prTargetBranch tag : String) :
    TriggerEventType × Option String :=
  if pushBranch ≠ "" then
    if prSourceBranch ≠ "" then
      (.unknown, some ("push_branch (" ++ pushBranch ++
        ") selects code-push trigger event, but pull_request_source_branch (" ++
        prSourceBranch ++ ") also provided"))
    else if prTargetBranch ≠ "" then
      (.unknown, some ("push_branch (" ++ pushBranch ++
        ") selects code-push trigger event, but pull_request_target_branch (" ++
        prTargetBranch ++ ") also provided"))
    else if tag ≠ "" then
      (.unknown, some ("push_branch (" ++ pushBranch ++
        ") selects code-push trigger event, but tag (" ++ tag ++ ") also provided"))
    else
      (.codePush, none)
  else if prSourceBranch ≠ "" ∨ prTargetBranch ≠ "" then
    if tag ≠ "" then
      (.unknown, some ("pull_request_source_branch (" ++ prSourceBranch ++
        ") and pull_request_target_branch (" ++ prTargetBranch ++
        ") selects pull-request trigger event, but tag (" ++ tag ++ ") also provided"))
    else
      (.pullRequest, none)
  else if tag ≠ "" then
    (.tag, none)
  else
    (.unknown, some ("failed to determin trigger event from params: push-branch: " ++
      pushBranch ++ ", pr-source-branch: " ++ prSourceBranch ++
      ", pr-target-branch: " ++ prTargetBranch ++ ", tag: " ++ tag))

/-- Event classification as worded by the design document section 4.2:
priority order code-push, pull-request, tag-push; `none` encodes the
error outcome. Written from the specification text, to be compared with
the source-derived `triggerEventType`. -/
def classifySpec (pushBranch prSourceBranch prTargetBranch tag : String) :
    Option TriggerEventType :=
  if pushBranch ≠ "" then
    if prSourceBranch ≠ "" ∨ prTargetBranch ≠ "" ∨ tag ≠ "" then none
    else some .codePush
  else if prSourceBranch ≠ "" ∨ prTargetBranch ≠ "" then
    if tag ≠ "" then none else some .pullRequest
  else if tag ≠ "" then
    some .tag
  else
    none

/-- C2 -- the event classifier follows the stated priority order: pushBranch
first (erroring when mixed with PR branches or tag), then PR branches
(erroring when mixed with tag), then tag, else an error for no signal.
Stated as agreement with `classifySpec`, the rules as worded by the spec. -/
theorem triggerEventType_follows_priority_order
    (pushBranch prSourceBranch prTargetBranch tag : String) :
    (triggerEventType pushBranch prSourceBranch prTargetBranch tag).1 =
      (classifySpec pushBranch prSourceBranch prTargetBranch tag).getD .unknown ∧
    ((triggerEventType pushBranch prSourceBranch prTargetBranch tag).2 = none ↔
      (classifySpec pushBranch prSourceBranch prTargetBranch tag).isSome = true) := by
  unfold triggerEventType classifySpec
  by_cases h1 : pushBranch = "" <;>
    by_cases h2 : prSourceBranch = "" <;>
      by_cases h3 : prTargetBranch = "" <;>
        by_cases h4 : tag = "" <;>
          simp [h1, h2, h3, h4]

/-- C9 -- the event classifier returns a non-nil error exactly when it
returns the unknown event type: no error alongside code-push, pull-request
or tag, and never unknown with a nil error. -/
theorem triggerEventType_error_iff_unknown
    (pushBranch prSourceBranch prTargetBranch tag : String) :
    (triggerEventType pushBranch prSourceBranch prTargetBranch tag).2.isSome = true ↔
      (triggerEventType pushBranch prSourceBranch prTargetBranch tag).1 = .unknown := by
  unfold triggerEventType
  by_cases h1 : pushBranch = "" <;>
    by_cases h2 : prSourceBranch = "" <;>
      by_cases h3 : prTargetBranch = "" <;>
        by_cases h4 : tag = "" <;>
          simp [h1, h2, h3, h4]

/-- Embeds Go `stringFromTriggerCondition` (`trigger_map_item.go` lines
433-438). The Go body performs the unchecked type assertion
`value.(string)` after a nil check, so a regex wrapper value makes the
process panic; the panic outcome is embedded as `none`. -/
def stringFromTriggerCondition (value : CondValue) : Option String :=
  match value with
  | .nil => some ""
  | .str s => some s
  | .regex _ => none

/-- Embeds Go `stringLiteralOrRegex` (`trigger_map_item.go` lines 440-454):
nil becomes the empty string, a plain string is returned as is, a regex
wrapper is unwrapped to its inner pattern text. -/
def stringLiteralOrRegex (value : CondValue) : String :=
  match value with
  | .nil => ""
  | .str s => s
  | .regex r => r

/-- Embeds Go `isStringLiteralOrRegexSet`. -/
def isStringLiteralOrRegexSet (value : CondValue) : Bool :=
  stringLiteralOrRegex value ≠ ""

/-- Embeds the Go method `IsDraftPullRequestEnabled` (`trigger_map_item.go`
lines 137-143): the pointer field when set, else the default `true`. -/
def TriggerMapItemModel.isDraftPullRequestEnabled (item : TriggerMapItemModel) : Bool :=
  match item.draftPullRequestEnabled with
  | none => defaultDraftPullRequestEnabled
  | some b => b

/-- Embeds Go `migrateDeprecatedTriggerItem` (`trigger_map_item.go` lines
490-504): a push-branch rule carrying the legacy pattern, followed, when
`IsPullRequestAllowed` is set, by a pull-request-source-branch rule with
the same pattern; both carry the original `WorkflowID`. -/
def migrateDeprecatedTriggerItem (triggerItem : TriggerMapItemModel) :
    List TriggerMapItemModel :=
  let migratedItems : List TriggerMapItemModel :=
    [{ pushBranch := .str triggerItem.pattern, workflowID := triggerItem.workflowID }]
  if triggerItem.isPullRequestAllowed then
    migratedItems ++
      [{ pullRequestSourceBranch := .str triggerItem.pattern,
         workflowID := triggerItem.workflowID }]
  else
    migratedItems

/-- Outcome of a call to `MatchWithParams`: a returned `(bool, error)` pair
with nil error (`ok`), a returned non-nil error (`err`, the Go bool is
false there), or a Go runtime panic raised inside the call (`panic`). -/
inductive MatchResult where
  | panic : MatchResult
  | err (msg : String) : MatchResult
  | ok (b : Bool) : MatchResult
  deriving DecidableEq, Repr

/-- Embeds the per-item loop of `MatchWithParams` (`trigger_map_item.go`
lines 80-132) over the (possibly migrated) trigger items, parametric in the
glob matcher of the `ryanuber/go-glob` dependency. Each iteration reduces
the four kind-selecting conditions with `stringFromTriggerCondition`
(panicking on a regex wrapper), classifies them, skips the item on a kind
mismatch and otherwise dispatches on the kind. -/
def matchMigrated (glob : String → String → Bool)
    (pushBranch prSourceBranch prTargetBranch prReadyState tag : String)
    (paramsEventType : TriggerEventType) :
    List TriggerMapItemModel → MatchResult
  | [] => .ok false
  | item :: rest =>
    match stringFromTriggerCondition item.pushBranch,
        stringFromTriggerCondition item.pullRequestSourceBranch,
        stringFromTriggerCondition item.pullRequestTargetBranch,
        stringFromTriggerCondition item.tag with
    | some itemPush, some itemSrc, some itemTgt, some itemTag =>
      match triggerEventType itemPush itemSrc itemTgt itemTag with
      | (_, some msg) => .err msg
      | (itemEventType, none) =>
        if paramsEventType ≠ itemEventType then
          matchMigrated glob pushBranch prSourceBranch prTargetBranch prReadyState tag
            paramsEventType rest
        else
          match itemEventType with
          | .codePush => .ok (glob itemPush pushBranch)
          | .pullRequest =>
            let sourceMatch : Bool :=
              if itemSrc = "" then true else glob itemSrc prSourceBranch
            let targetMatch : Bool :=
              if itemTgt = "" then true else glob itemTgt prTargetBranch
            let stateMismatch : Bool :=
              if item.isDraftPullRequestEnabled then
                prReadyState = pullRequestReadyStateConvertedToReadyForReview
              else
                prReadyState = pullRequestReadyStateDraft
            .ok (sourceMatch && targetMatch && !stateMismatch)
          | .tag => .ok (glob itemTag tag)
          | .unknown =>
            matchMigrated glob pushBranch prSourceBranch prTargetBranch prReadyState tag
              paramsEventType rest
    | _, _, _, _ => .panic

/-- Embeds the Go method `MatchWithParams` (`trigger_map_item.go` lines
69-135): classify the runtime parameters, expand a legacy pattern item,
then run the per-item loop. -/
def TriggerMapItemModel.matchWithParams (glob : String → String → Bool)
    (item : TriggerMapItemModel)
    (pushBranch prSourceBranch prTargetBranch prReadyState tag : String) :
    MatchResult :=
  match triggerEventType pushBranch prSourceBranch prTargetBranch tag with
  | (_, some msg) => .err msg
  | (paramsEventType, none) =>
    let migratedTriggerItems : List TriggerMapItemModel :=
      if item.pattern ≠ "" then migrateDeprecatedTriggerItem item else [item]
    matchMigrated glob pushBranch prSourceBranch prTargetBranch prReadyState tag
      paramsEventType migratedTriggerItems

/-- C1 -- the claim expects `MatchWithParams` to reduce a regex-wrapped
condition to its unwrapped string and return a `(bool, error)` pair, never
aborting the process. The code instead reduces rule conditions with
`stringFromTriggerCondition`, whose unchecked `value.(string)` assertion
panics on a `TriggerItemConditionRegexValue`: a code-push rule whose
push-branch condition is the regex wrapper `main.*`, matched against a
plain push event on branch `main`, aborts instead of returning a value. -/
theorem matchWithParams_panics_on_regex_condition :
    ∀ glob : String → String → Bool,
      TriggerMapItemModel.matchWithParams glob
        { pushBranch := CondValue.regex "main.*", workflowID := "primary" }
        "main" "" "" "" "" = MatchResult.panic := by
  intro glob
  rfl

/-- C5 -- migrating a legacy (pattern) rule yields exactly the push-branch
rule carrying the pattern when `is-pull-request-allowed` is false, and that
rule followed by a pull-request-source-branch rule with the same pattern
and workflow target when it is true. -/
theorem migrateDeprecatedTriggerItem_shape (item : TriggerMapItemModel)
    (hlegacy : item.pattern ≠ "") :
    migrateDeprecatedTriggerItem item =
      (if item.isPullRequestAllowed then
        [{ pushBranch := CondValue.str item.pattern, workflowID := item.workflowID },
         { pullRequestSourceBranch := CondValue.str item.pattern,
           workflowID := item.workflowID }]
      else
        [{ pushBranch := CondValue.str item.pattern, workflowID := item.workflowID }]) ∧
    (migrateDeprecatedTriggerItem item).length =
      (if item.isPullRequestAllowed then 2 else 1) := by
  unfold migrateDeprecatedTriggerItem
  cases h : item.isPullRequestAllowed <;> simp [h]

/-- Witness for C5 at a concrete legacy rule with pull requests allowed. -/
theorem migrateDeprecatedTriggerItem_shape_witness :
    migrateDeprecatedTriggerItem
        { pattern := "release/*", workflowID := "primary", isPullRequestAllowed := true } =
      [{ pushBranch := CondValue.str "release/*", workflowID := "primary" },
       { pullRequestSourceBranch := CondValue.str "release/*", workflowID := "primary" }] := by
  have h := migrateDeprecatedTriggerItem_shape
    { pattern := "release/*", workflowID := "primary", isPullRequestAllowed := true }
    (by decide)
  simpa using h.1

/-- Embeds Go `validateStringType` (`trigger_map_item.go` lines 407-416):
nil and plain strings pass, anything else (the regex wrapper) errors. -/
def validateStringType (idx : Nat) (field : String) (value : CondValue) :
    Option String :=
  match value with
  | .nil => none
  | .str _ => none
  | .regex _ =>
    some ("string literal value is expected for " ++ field ++ " in the " ++
      toString (idx + 1) ++ ". trigger item")

/-- Embeds Go `validateStringOrRegexType` (`trigger_map_item.go` lines
418-431): nil, plain strings and regex wrappers all pass. -/
def validateStringOrRegexType (idx : Nat) (field : String) (value : CondValue) :
    Option String :=
  match value with
  | .nil => none
  | .str _ => none
  | .regex _ => none

/-- Embeds Go `validateConditionValuesOfItem` (`trigger_map_item.go` lines
278-292): checks, in order, only `push_branch`, `tag`,
`pull_request_source_branch` and `pull_request_target_branch` with
`validateStringType`, returning the first error. -/
def validateConditionValuesOfItem (idx : Nat) (item : TriggerMapItemModel) :
    Option String :=
  match validateStringType idx "push_branch" item.pushBranch with
  | some e => some e
  | none =>
    match validateStringType idx "tag" item.tag with
    | some e => some e
    | none =>
      match validateStringType idx "pull_request_source_branch"
          item.pullRequestSourceBranch with
      | some e => some e
      | none =>
        validateStringType idx "pull_request_target_branch"
          item.pullRequestTargetBranch

/-- Embeds Go `validateConditionValuesOfItemWithExplicitType`
(`trigger_map_item.go` lines 294-319): all seven condition fields are
checked with `validateStringOrRegexType`. -/
def validateConditionValuesOfItemWithExplicitType (idx : Nat)
    (item : TriggerMapItemModel) : Option String :=
  match validateStringOrRegexType idx "push_branch" item.pushBranch with
  | some e => some e
  | none =>
    match validateStringOrRegexType idx "commit_message" item.commitMessage with
    | some e => some e
    | none =>
      match validateStringOrRegexType idx "changed_files" item.changedFiles with
      | some e => some e
      | none =>
        match validateStringOrRegexType idx "tag" item.tag with
        | some e => some e
        | none =>
          match validateStringOrRegexType idx "pull_request_source_branch"
              item.pullRequestSourceBranch with
          | some e => some e
          | none =>
            match validateStringOrRegexType idx "pull_request_target_branch"
                item.pullRequestTargetBranch with
            | some e => some e
            | none =>
              validateStringOrRegexType idx "pull_request_label"
                item.pullRequestLabel

/-- Embeds Go `validateNoCodePushConditionsSet` (`trigger_map_item.go`
lines 321-332). -/
def validateNoCodePushConditionsSet (idx : Nat) (field : String)
    (item : TriggerMapItemModel) : Option String :=
  if isStringLiteralOrRegexSet item.pushBranch then
    some ("both " ++ field ++ " and push_branch defined in the " ++
      toString (idx + 1) ++ ". trigger item")
  else if isStringLiteralOrRegexSet item.commitMessage then
    some ("both " ++ field ++ " and commit_message defined in the " ++
      toString (idx + 1) ++ ". trigger item")
  else if isStringLiteralOrRegexSet item.changedFiles then
    some ("both " ++ field ++ " and changed_files defined in the " ++
      toString (idx + 1) ++ ". trigger item")
  else
    none

/-- Embeds Go `validateNoTagPushConditionsSet` (`trigger_map_item.go`
lines 334-339). -/
def validateNoTagPushConditionsSet (idx : Nat) (field : String)
    (item : TriggerMapItemModel) : Option String :=
  if isStringLiteralOrRegexSet item.tag then
    some ("both " ++ field ++ " and tag defined in the " ++
      toString (idx + 1) ++ ". trigger item")
  else
    none

/-- Embeds Go `validateNoPullRequestConditionsSet` (`trigger_map_item.go`
lines 341-355). -/
def validateNoPullRequestConditionsSet (idx : Nat) (field : String)
    (item : TriggerMapItemModel) : Option String :=
  if isStringLiteralOrRegexSet item.pullRequestSourceBranch then
    some ("both " ++ field ++ " and pull_request_source_branch defined in the " ++
      toString (idx + 1) ++ ". trigger item")
  else if isStringLiteralOrRegexSet item.pullRequestTargetBranch then
    some ("both " ++ field ++ " and pull_request_target_branch defined in the " ++
      toString (idx + 1) ++ ". trigger item")
  else if item.isDraftPullRequestEnabled ≠ defaultDraftPullRequestEnabled then
    some ("both " ++ field ++ " and draft_pull_request_enabled defined in the " ++
      toString (idx + 1) ++ ". trigger item")
  else if isStringLiteralOrRegexSet item.pullRequestLabel then
    some ("both " ++ field ++ " and pull_request_label defined in the " ++
      toString (idx + 1) ++ ". trigger item")
  else
    none

/-- Embeds Go `validateTypeOfLegacyItem` (`trigger_map_item.go` lines
202-213). -/
def validateTypeOfLegacyItem (idx : Nat) (item : TriggerMapItemModel) :
    Option String :=
  match validateNoCodePushConditionsSet idx "pattern" item with
  | some e => some e
  | none =>
    match validateNoTagPushConditionsSet idx "pattern" item with
    | some e => some e
    | none => validateNoPullRequestConditionsSet idx "pattern" item

/-- Embeds Go `validateTypeOfItem` (`trigger_map_item.go` lines 215-249),
including the final branch whose condition repeats the tag test and whose
message doubles the word `defined`, as in the source. -/
def validateTypeOfItem (idx : Nat) (item : TriggerMapItemModel) : Option String :=
  if isStringLiteralOrRegexSet item.pushBranch then
    match validateNoTagPushConditionsSet idx "push_branch" item with
    | some e => some e
    | none => validateNoPullRequestConditionsSet idx "push_branch" item
  else if isStringLiteralOrRegexSet item.pullRequestSourceBranch then
    match validateNoCodePushConditionsSet idx "pull_request_source_branch" item with
    | some e => some e
    | none => validateNoTagPushConditionsSet idx "pull_request_source_branch" item
  else if isStringLiteralOrRegexSet item.pullRequestTargetBranch then
    match validateNoCodePushConditionsSet idx "pull_request_target_branch" item with
    | some e => some e
    | none => validateNoTagPushConditionsSet idx "pull_request_target_branch" item
  else if isStringLiteralOrRegexSet item.tag then
    match validateNoCodePushConditionsSet idx "tag" item with
    | some e => some e
    | none => validateNoPullRequestConditionsSet idx "tag" item
  else if !isStringLiteralOrRegexSet item.tag then
    some ("no trigger condition defined defined in the " ++ toString (idx + 1) ++
      ". trigger item")
  else
    none

/-- Embeds Go `validateTypeOfItemWithExplicitType` (`trigger_map_item.go`
lines 251-276): dispatch on the explicit type string; unrecognized types
pass through unchecked, as in the Go switch. -/
def validateTypeOfItemWithExplicitType (idx : Nat) (item : TriggerMapItemModel) :
    Option String :=
  if item.type = "code-push" then
    match validateNoTagPushConditionsSet idx "code-push type" item with
    | some e => some e
    | none => validateNoPullRequestConditionsSet idx "code-push type" item
  else if item.type = "pull-request" then
    match validateNoCodePushConditionsSet idx "pull-request type" item with
    | some e => some e
    | none => validateNoTagPushConditionsSet idx "pull-request type" item
  else if item.type = "tag-push" then
    match validateNoCodePushConditionsSet idx "tag-push type" item with
    | some e => some e
    | none => validateNoPullRequestConditionsSet idx "tag-push type" item
  else
    none

/-- Embeds the Go call `strings.HasPrefix(item.WorkflowID, "_")` used by
`validateTarget`: true exactly when the first character is an underscore. -/
def beginsWithUnderscore (s : String) : Bool :=
  match s.data with
  | [] => false
  | c :: _ => c = '_'

/-- Embeds Go `validateTarget` (`trigger_map_item.go` lines 174-200):
exactly one of pipeline and workflow must be set, an underscore workflow is
a warning, and the target id must exist in the declared id lists. Returns
the accumulated warnings and the error value. -/
def validateTarget (idx : Nat) (item : TriggerMapItemModel)
    (workflows pipelines : List String) : List String × Option String :=
  if item.pipelineID ≠ "" ∧ item.workflowID ≠ "" then
    ([], some ("both pipeline and workflow are defined as trigger target for the " ++
      toString (idx + 1) ++ ". trigger item"))
  else if item.pipelineID = "" ∧ item.workflowID = "" then
    ([], some ("no pipeline nor workflow is defined as a trigger target for the " ++
      toString (idx + 1) ++ ". trigger item"))
  else
    let warnings : List String :=
      if beginsWithUnderscore item.workflowID then
        ["utility workflow (" ++ item.workflowID ++
          ") defined as trigger target for the " ++ toString (idx + 1) ++
          ". trigger item, but utility workflows can't be triggered directly"]
      else
        []
    if item.pipelineID ≠ "" then
      if pipelines.contains item.pipelineID then
        (warnings, none)
      else
        (warnings, some ("pipeline (" ++ item.pipelineID ++ ") defined in the " ++
          toString (idx + 1) ++ ". trigger item, but does not exist"))
    else
      if workflows.contains item.workflowID then
        (warnings, none)
      else
        (warnings, some ("workflow (" ++ item.workflowID ++ ") defined in the " ++
          toString (idx + 1) ++ ". trigger item, but does not exist"))

/-- Embeds the Go method `Validate` (`trigger_map_item.go` lines 145-172):
target validation first, then the legacy, untyped or explicitly-typed
branch. Returns the warnings and the error value. -/
def TriggerMapItemModel.Validate (item : TriggerMapItemModel) (idx : Nat)
    (workflows pipelines : List String) : List String × Option String :=
  match validateTarget idx item workflows pipelines with
  | (warnings, some e) => (warnings, some e)
  | (warnings, none) =>
    if item.pattern ≠ "" then
      (warnings, validateTypeOfLegacyItem idx item)
    else if item.type = "" then
      match validateTypeOfItem idx item with
      | some e => (warnings, some e)
      | none => (warnings, validateConditionValuesOfItem idx item)
    else
      match validateTypeOfItemWithExplicitType idx item with
      | some e => (warnings, some e)
      | none => (warnings, validateConditionValuesOfItemWithExplicitType idx item)

/-- C6 counterexample -- an untyped modern rule whose `commit_message`
condition is a regex wrapper passes `Validate` with no error and no
warning: validation does not error on every regex-valued condition field
of an untyped rule. -/
theorem validate_accepts_regex_commit_message_in_untyped_rule :
    TriggerMapItemModel.Validate
        { workflowID := "primary", pushBranch := CondValue.str "main",
          commitMessage := CondValue.regex "fix.*" }
        0 ["primary"] [] = ([], none) ∧
      ({ workflowID := "primary", pushBranch := CondValue.str "main",
         commitMessage := CondValue.regex "fix.*" } :
          TriggerMapItemModel).commitMessage = CondValue.regex "fix.*" := by
  constructor <;> rfl

/-- C6 amended -- for an untyped modern rule, the condition-value check
errors exactly when one of `push_branch`, `tag`,
`pull_request_source_branch` or `pull_request_target_branch` holds a regex
wrapper; `commit_message`, `changed_files` and `pull_request_label` are
never inspected by it. -/
theorem validateConditionValuesOfItem_checks_exactly_four_fields
    (idx : Nat) (item : TriggerMapItemModel) :
    ((validateConditionValuesOfItem idx item).isSome = true ↔
      ((∃ r, item.pushBranch = CondValue.regex r) ∨
        (∃ r, item.tag = CondValue.regex r) ∨
        (∃ r, item.pullRequestSourceBranch = CondValue.regex r) ∨
        (∃ r, item.pullRequestTargetBranch = CondValue.regex r))) ∧
    (∀ v1 v2 v3,
      validateConditionValuesOfItem idx
          { item with
            commitMessage := v1
            changedFiles := v2
            pullRequestLabel := v3 } =
        validateConditionValuesOfItem idx item) := by
  constructor
  · cases hpb : item.pushBranch <;>
      cases htag : item.tag <;>
        cases hsrc : item.pullRequestSourceBranch <;>
          cases htgt : item.pullRequestTargetBranch <;>
            simp [validateConditionValuesOfItem, validateStringType, hpb, htag,
              hsrc, htgt]
  · intro v1 v2 v3
    rfl

/-- Helper: classification of runtime pull-request parameters (no push
branch, no tag, at least one PR branch). -/
theorem triggerEventType_pr_params (prSourceBranch prTargetBranch : String)
    (h : ¬(prSourceBranch = "" ∧ prTargetBranch = "")) :
    triggerEventType "" prSourceBranch prTargetBranch "" =
      (.pullRequest, none) := by
  unfold triggerEventType
  rcases Decidable.not_and_iff_or_not.mp h with h1 | h1 <;> simp [h1]

/-- C3 -- for a pull-request rule (conditions reducing to an empty push
branch and tag, and source and target branch conditions `src` and `tgt`,
not both empty) matched against a runtime pull-request event, the result
is: (src empty OR src glob-matches the runtime source branch) AND (tgt
empty OR tgt glob-matches the runtime target branch) AND NOT mismatch,
where mismatch holds exactly when draft-enabled (defaulting to true when
unset) is true and the readiness is converted-to-ready-for-review, or
draft-enabled is false and the readiness is draft. -/
theorem matchWithParams_pull_request_semantics
    (glob : String → String → Bool) (item : TriggerMapItemModel)
    (src tgt prSourceBranch prTargetBranch prReadyState : String)
    (hpat : item.pattern = "")
    (hpush : stringFromTriggerCondition item.pushBranch = some "")
    (htag : stringFromTriggerCondition item.tag = some "")
    (hsrc : stringFromTriggerCondition item.pullRequestSourceBranch = some src)
    (htgt : stringFromTriggerCondition item.pullRequestTargetBranch = some tgt)
    (hcond : ¬(src = "" ∧ tgt = ""))
    (hparams : ¬(prSourceBranch = "" ∧ prTargetBranch = "")) :
    item.matchWithParams glob "" prSourceBranch prTargetBranch prReadyState "" =
      MatchResult.ok
        ((decide (src = "") || glob src prSourceBranch) &&
          (decide (tgt = "") || glob tgt prTargetBranch) &&
          !((item.draftPullRequestEnabled.getD true &&
              decide (prReadyState = pullRequestReadyStateConvertedToReadyForReview)) ||
            (!(item.draftPullRequestEnabled.getD true) &&
              decide (prReadyState = pullRequestReadyStateDraft)))) := by
  unfold TriggerMapItemModel.matchWithParams
  rw [triggerEventType_pr_params prSourceBranch prTargetBranch hparams]
  simp only [hpat, ne_eq, not_true_eq_false, if_false, ite_false]
  unfold matchMigrated
  rw [hpush, hsrc, htgt, htag]
  dsimp only
  rw [triggerEventType_pr_params src tgt hcond]
  cases hd : item.draftPullRequestEnabled with
  | none =>
    by_cases h1 : src = "" <;> by_cases h2 : tgt = "" <;>
      simp [TriggerMapItemModel.isDraftPullRequestEnabled, hd, h1, h2,
        defaultDraftPullRequestEnabled]
  | some b =>
    cases b <;>
      by_cases h1 : src = "" <;> by_cases h2 : tgt = "" <;>
        simp [TriggerMapItemModel.isDraftPullRequestEnabled, hd, h1, h2]

/-- A concrete glob matcher used to instantiate witnesses: exact equality,
the behavior of the `ryanuber/go-glob` dependency on patterns without a
star. -/
def globExact (p s : String) : Bool := p == s

/-- Witness for C3 at a concrete pull-request rule and runtime event. -/
theorem matchWithParams_pull_request_semantics_witness :
    TriggerMapItemModel.matchWithParams globExact
        { pullRequestSourceBranch := CondValue.str "feat",
          pullRequestTargetBranch := CondValue.str "main",
          workflowID := "primary" }
        "" "feat" "main" "draft" "" = MatchResult.ok true := by
  have h := matchWithParams_pull_request_semantics globExact
    { pullRequestSourceBranch := CondValue.str "feat",
      pullRequestTargetBranch := CondValue.str "main",
      workflowID := "primary" }
    "feat" "main" "feat" "main" "draft"
    rfl rfl rfl rfl rfl (by decide) (by decide)
  simpa [globExact] using h

/-- Embeds Go `validateTriggerMap` (`trigger_check.go` lines 155-167):
every legacy item must carry a non-empty pattern and workflow id. -/
def validateTriggerMap : List TriggerMapItemModel → Option String
  | [] => none
  | item :: rest =>
    if item.pattern = "" then
      some ("invalid trigger item: (" ++ item.pattern ++ ") -> (" ++
        item.workflowID ++ "), error: empty pattern")
    else if item.workflowID = "" then
      some ("invalid trigger item: (" ++ item.pattern ++ ") -> (" ++
        item.workflowID ++ "), error: empty workflow id")
    else
      validateTriggerMap rest

/-- Error returned by `getWorkflowIDByPattern` when a glob match was found
but only on rules disabled in pull request mode (`trigger_check.go` line
186). -/
def matchDisabledInPRModeError (pattern : String) : String :=
  "Run triggered by pattern: (" ++ pattern ++
    ") in pull request mode, but matching workflow disabled in pull request mode"

/-- Error returned by `getWorkflowIDByPattern` when no rule glob-matches
(`trigger_check.go` line 188). -/
def noMatchingWorkflowError (pattern : String) : String :=
  "Run triggered by pattern: (" ++ pattern ++ "), but no matching workflow found"

/-- Embeds the rule loop of Go `getWorkflowIDByPattern` (`trigger_check.go`
lines 174-188), carrying the `matchFoundButPullRequestModeNotAllowed`
flag. -/
def getWorkflowIDLoop (glob : String → String → Bool) (pattern : String)
    (isPullRequestMode : Bool) :
    Bool → List TriggerMapItemModel → Except String String
  | flag, [] =>
    if flag then .error (matchDisabledInPRModeError pattern)
    else .error (noMatchingWorkflowError pattern)
  | flag, item :: rest =>
    if glob item.pattern pattern then
      if isPullRequestMode && !item.isPullRequestAllowed then
        getWorkflowIDLoop glob pattern isPullRequestMode true rest
      else
        .ok item.workflowID
    else
      getWorkflowIDLoop glob pattern isPullRequestMode flag rest

/-- Embeds Go `getWorkflowIDByPattern` (`trigger_check.go` lines 169-189),
parametric in the glob matcher of the `ryanuber/go-glob` dependency. -/
def getWorkflowIDByPattern (glob : String → String → Bool)
    (triggerMap : List TriggerMapItemModel) (pattern : String)
    (isPullRequestMode : Bool) : Except String String :=
  match validateTriggerMap triggerMap with
  | some e => .error e
  | none => getWorkflowIDLoop glob pattern isPullRequestMode false triggerMap

/-- A rule is an effective match for `getWorkflowIDByPattern` when its
legacy pattern glob-matches the runtime pattern and it is not skipped by
pull request mode (skipping happens when pull request mode is on and the
rule has `is_pull_request_allowed` false). -/
def itemMatch (glob : String → String → Bool) (pattern : String)
    (isPullRequestMode : Bool) (item : TriggerMapItemModel) : Bool :=
  glob item.pattern pattern && !(isPullRequestMode && !item.isPullRequestAllowed)

/-- Helper: a successful loop result is the workflow of the first
effective match, and every earlier item is not an effective match. -/
theorem getWorkflowIDLoop_ok_first (glob : String → String → Bool)
    (pattern : String) (prMode : Bool) :
    ∀ (l : List TriggerMapItemModel) (flag : Bool) (w : String),
      getWorkflowIDLoop glob pattern prMode flag l = .ok w →
      ∃ i : Fin l.length,
        itemMatch glob pattern prMode (l.get i) = true ∧
        (l.get i).workflowID = w ∧
        ∀ j : Fin l.length, j.val < i.val →
          itemMatch glob pattern prMode (l.get j) = false := by
  intro l
  induction l with
  | nil =>
    intro flag w h
    unfold getWorkflowIDLoop at h
    cases flag <;> simp at h
  | cons item rest ih =>
    intro flag w h
    unfold getWorkflowIDLoop at h
    by_cases hg : glob item.pattern pattern
    · rw [if_pos hg] at h
      by_cases hskip : prMode && !item.isPullRequestAllowed
      · rw [if_pos hskip] at h
        obtain ⟨i, hi1, hi2, hi3⟩ := ih true w h
        refine ⟨⟨i.val + 1, by simpa using i.isLt⟩, by simpa using hi1,
          by simpa using hi2, ?_⟩
        intro j hj
        match j, hj with
        | ⟨0, _⟩, _ =>
          simp [itemMatch, hg, hskip]
        | ⟨jv + 1, hjv⟩, hj =>
          have := hi3 ⟨jv, by simpa using hjv⟩ (by simpa using hj)
          simpa using this
      · rw [if_neg hskip] at h
        have hs : (prMode && !item.isPullRequestAllowed) = false :=
          Bool.not_eq_true _ ▸ hskip
        refine ⟨⟨0, by simp⟩, ?_, ?_, ?_⟩
        · simp [itemMatch, hg, hs]
        · exact Except.ok.inj h
        · intro j hj
          exact absurd hj (by simp)
    · rw [if_neg hg] at h
      obtain ⟨i, hi1, hi2, hi3⟩ := ih flag w h
      refine ⟨⟨i.val + 1, by simpa using i.isLt⟩, by simpa using hi1,
        by simpa using hi2, ?_⟩
      intro j hj
      match j, hj with
      | ⟨0, _⟩, _ =>
        simp [itemMatch, hg]
      | ⟨jv + 1, hjv⟩, hj =>
        have := hi3 ⟨jv, by simpa using hjv⟩ (by simpa using hj)
        simpa using this

/-- C4 -- when resolution succeeds, the returned workflow is the target of
the first rule in list order that effectively matches the runtime pattern,
and every earlier rule is a non-match. -/
theorem getWorkflowIDByPattern_first_match (glob : String → String → Bool)
    (triggerMap : List TriggerMapItemModel) (pattern : String)
    (isPullRequestMode : Bool) (w : String)
    (h : getWorkflowIDByPattern glob triggerMap pattern isPullRequestMode = .ok w) :
    ∃ i : Fin triggerMap.length,
      itemMatch glob pattern isPullRequestMode (triggerMap.get i) = true ∧
      (triggerMap.get i).workflowID = w ∧
      ∀ j : Fin triggerMap.length, j.val < i.val →
        itemMatch glob pattern isPullRequestMode (triggerMap.get j) = false := by
  unfold getWorkflowIDByPattern at h
  cases hv : validateTriggerMap triggerMap with
  | some e => rw [hv] at h; simp at h
  | none =>
    rw [hv] at h
    exact getWorkflowIDLoop_ok_first glob pattern isPullRequestMode triggerMap false w h

/-- Witness for C4: a map whose second rule is the first effective match. -/
theorem getWorkflowIDByPattern_first_match_witness :
    getWorkflowIDByPattern globExact
        [{ pattern := "x", workflowID := "first" },
         { pattern := "p", workflowID := "second" }] "p" false = .ok "second" ∧
      ∃ i : Fin 2,
        itemMatch globExact "p" false
            ([{ pattern := "x", workflowID := "first" },
              { pattern := "p", workflowID := "second" }].get i) = true ∧
        (([{ pattern := "x", workflowID := "first" },
            { pattern := "p", workflowID := "second" }] :
              List TriggerMapItemModel).get i).workflowID = "second" ∧
        ∀ j : Fin 2, j.val < i.val →
          itemMatch globExact "p" false
              ([{ pattern := "x", workflowID := "first" },
                { pattern := "p", workflowID := "second" }].get j) = false := by
  refine ⟨by rfl, ?_⟩
  exact getWorkflowIDByPattern_first_match globExact
    [{ pattern := "x", workflowID := "first" },
     { pattern := "p", workflowID := "second" }] "p" false "second" (by rfl)

/-- Helper: when the loop ends in an error, no rule in the remaining list
is an effective match. -/
theorem getWorkflowIDLoop_error_no_match (glob : String → String → Bool)
    (pattern : String) (prMode : Bool) :
    ∀ (l : List TriggerMapItemModel) (flag : Bool) (e : String),
      getWorkflowIDLoop glob pattern prMode flag l = .error e →
      ∀ it ∈ l, itemMatch glob pattern prMode it = false := by
  intro l
  induction l with
  | nil => intro flag e _ it hit; simp at hit
  | cons item rest ih =>
    intro flag e h it hit
    unfold getWorkflowIDLoop at h
    by_cases hg : glob item.pattern pattern
    · rw [if_pos hg] at h
      by_cases hskip : prMode && !item.isPullRequestAllowed
      · rw [if_pos hskip] at h
        rcases List.mem_cons.mp hit with rfl | hmem
        · simp [itemMatch, hg, hskip]
        · exact ih true e h it hmem
      · rw [if_neg hskip] at h
        simp at h
    · rw [if_neg hg] at h
      rcases List.mem_cons.mp hit with rfl | hmem
      · simp [itemMatch, hg]
      · exact ih flag e h it hmem

/-- Helper: when the loop ends in an error and either the flag is already
set or some remaining rule glob-matches but is disabled in pull request
mode, the error is the distinct disabled-in-PR-mode error. -/
theorem getWorkflowIDLoop_error_disabled (glob : String → String → Bool)
    (pattern : String) (prMode : Bool) :
    ∀ (l : List TriggerMapItemModel) (flag : Bool) (e : String),
      getWorkflowIDLoop glob pattern prMode flag l = .error e →
      (flag = true ∨ ∃ it ∈ l, glob it.pattern pattern = true ∧
        (prMode && !it.isPullRequestAllowed) = true) →
      e = matchDisabledInPRModeError pattern := by
  intro l
  induction l with
  | nil =>
    intro flag e h hcase
    rcases hcase with hflag | ⟨it, hit, _⟩
    · unfold getWorkflowIDLoop at h
      rw [hflag] at h
      simpa using h.symm
    · simp at hit
  | cons item rest ih =>
    intro flag e h hcase
    unfold getWorkflowIDLoop at h
    by_cases hg : glob item.pattern pattern
    · rw [if_pos hg] at h
      by_cases hskip : prMode && !item.isPullRequestAllowed
      · rw [if_pos hskip] at h
        exact ih true e h (Or.inl rfl)
      · rw [if_neg hskip] at h
        simp at h
    · rw [if_neg hg] at h
      refine ih flag e h ?_
      rcases hcase with hflag | ⟨it, hit, hit2⟩
      · exact Or.inl hflag
      · rcases List.mem_cons.mp hit with rfl | hmem
        · exact absurd hit2.1 hg
        · exact Or.inr ⟨it, hmem, hit2⟩

/-- C10 -- in pull request mode, a rule whose pattern glob-matches but has
`is_pull_request_allowed` false is skipped, so resolution still succeeds
when some rule is an effective match; and when resolution fails while at
least one such skipped match exists, the error is the distinct
disabled-in-pull-request-mode error rather than the generic
no-matching-workflow error. -/
theorem getWorkflowIDByPattern_pr_mode_skip (glob : String → String → Bool)
    (triggerMap : List TriggerMapItemModel) (pattern : String)
    (hv : validateTriggerMap triggerMap = none)
    (hskip : ∃ it ∈ triggerMap, glob it.pattern pattern = true ∧
      it.isPullRequestAllowed = false) :
    ((∃ it ∈ triggerMap, itemMatch glob pattern true it = true) →
      ∃ w, getWorkflowIDByPattern glob triggerMap pattern true = .ok w) ∧
    (∀ e, getWorkflowIDByPattern glob triggerMap pattern true = .error e →
      e = matchDisabledInPRModeError pattern) := by
  constructor
  · rintro ⟨it, hmem, hm⟩
    unfold getWorkflowIDByPattern
    rw [hv]
    cases hres : getWorkflowIDLoop glob pattern true false triggerMap with
    | ok w => exact ⟨w, rfl⟩
    | error e =>
      have := getWorkflowIDLoop_error_no_match glob pattern true triggerMap
        false e hres it hmem
      rw [hm] at this
      simp at this
  · intro e he
    unfold getWorkflowIDByPattern at he
    rw [hv] at he
    obtain ⟨it, hmem, hg, hallow⟩ := hskip
    exact getWorkflowIDLoop_error_disabled glob pattern true triggerMap false e he
      (Or.inr ⟨it, hmem, hg, by simp [hallow]⟩)

/-- Witness for C10: a skipped disabled match followed by an enabled match
still resolves. -/
theorem getWorkflowIDByPattern_pr_mode_skip_witness :
    ∃ w, getWorkflowIDByPattern globExact
        [{ pattern := "p", workflowID := "first", isPullRequestAllowed := false },
         { pattern := "p", workflowID := "second", isPullRequestAllowed := true }]
        "p" true = .ok w := by
  refine (getWorkflowIDByPattern_pr_mode_skip globExact
    [{ pattern := "p", workflowID := "first", isPullRequestAllowed := false },
     { pattern := "p", workflowID := "second", isPullRequestAllowed := true }]
    "p" (by rfl) ?_).1 ?_
  · exact ⟨{ pattern := "p", workflowID := "first", isPullRequestAllowed := false },
      by simp, by rfl, by rfl⟩
  · exact ⟨{ pattern := "p", workflowID := "second", isPullRequestAllowed := true },
      by simp, by rfl⟩

/-- Modelled from the spec: the `ConfigReference` of the config composition
engine, whose implementation is absent from the sources (only
`configmerge_test.go` exercises it) -- a path plus an optional repository
and at most one of branch, commit, tag. -/
structure ConfigReference where
  repository : String := ""
  path : String := ""
  branch : String := ""
  commit : String := ""
  tag : String := ""
  deriving DecidableEq, Repr

/-- Modelled from the spec: a merged document, flattened to one level of
string keys and scalar values. The nested recursive merge and sequence
handling of the spec is not exercised by the claims under check. -/
abbrev Doc := List (String × String)

/-- Modelled from the spec: the outcome of fetching and parsing one
fragment -- its raw byte size, its declared include list (the structural
`include` key), and its remaining directly-authored keys. -/
structure Fragment where
  size : Nat := 0
  includes : List ConfigReference := []
  doc : Doc := []
  deriving DecidableEq, Repr

/-- Fixed limit: max file size in bytes (named as in
`configmerge_test.go`). -/
def MaxFileSizeBytes : Nat := 1048576

/-- Fixed limit: max include entries per file (named as in
`configmerge_test.go`). -/
def MaxIncludeCountPerFile : Nat := 10

/-- Fixed limit: max files loaded per composition. -/
def MaxFilesCountTotal : Nat := 20

/-- Fixed limit: max inclusion depth. -/
def MaxIncludeDepth : Nat := 5

/-- Error text pinned by the test `Max file size is 1MB`. -/
def maxFileSizeError (pth : String) : String :=
  "max file size (" ++ toString MaxFileSizeBytes ++ " bytes) exceeded in file " ++ pth

/-- Error text pinned by the test `Max 10 include items are allowed`. -/
def maxIncludeCountError : String :=
  "max include count (" ++ toString MaxIncludeCountPerFile ++ ") exceeded"

/-- Error text pinned by the test `Max 20 config files are allowed`. -/
def maxFileCountError : String :=
  "max file count (" ++ toString MaxFilesCountTotal ++ ") exceeded"

/-- Error text pinned by the test `Max include depth is 5`. -/
def maxIncludeDepthError : String :=
  "max include depth (" ++ toString MaxIncludeDepth ++ ") exceeded"

/-- Error text pinned by the test `Circular dependency is not allowed`:
the visited chain plus the repeated reference, in traversal order. -/
def circularReferenceError (chain : List ConfigReference) : String :=
  "circular reference detected: " ++
    String.intercalate " -> " (chain.map ConfigReference.path)

/-- Fetch error of the mock content reader in `configmerge_test.go`. -/
def fileNotFoundError (ref : ConfigReference) : String :=
  "file not found: " ++ ref.path

/-- Modelled from the spec: merge of two flattened documents, the overlay
taking precedence on key conflicts. -/
def mergeDocs (base overlay : Doc) : Doc :=
  base.filter (fun kv => !(overlay.any (fun kv2 => kv2.1 = kv.1))) ++ overlay

/-- Modelled from the spec: resolve a list of include entries in listed
order, threading the loaded-file count and merging the sub-documents in
order; any failure aborts immediately. -/
def resolveList (resolve : Nat → ConfigReference → Except String (Doc × Nat)) :
    Nat → List ConfigReference → Except String (Doc × Nat)
  | files, [] => .ok ([], files)
  | files, r :: rs =>
    match resolve files r with
    | .error e => .error e
    | .ok (d, files2) =>
      match resolveList resolve files2 rs with
      | .error e => .error e
      | .ok (d2, files3) => .ok (mergeDocs d d2, files3)

/-- Modelled from the spec: resolve one reference -- cycle check against
the visited chain, depth check, file-count check, fetch, size check,
include-count check, then recursive resolution of the includes and the
merge of the own keys on top. The depth boundary is pinned by the test
`Max include depth is 5`, in which a chain of five includes beyond the
root fails: an include entered at nesting level `MaxIncludeDepth` errors.
The fuel argument only bounds recursion and is kept one step ahead of the
remaining allowed depth, so the `0` case is unreachable from
`mergeConfig`. -/
def resolveRef (read : ConfigReference → Option Fragment) :
    Nat → List ConfigReference → Nat → Nat → ConfigReference →
    Except String (Doc × Nat)
  | 0, _, _, _, _ => .error maxIncludeDepthError
  | fuel + 1, chain, depth, filesLoaded, ref =>
    if ref ∈ chain then
      .error (circularReferenceError (chain ++ [ref]))
    else if MaxIncludeDepth ≤ depth then
      .error maxIncludeDepthError
    else if MaxFilesCountTotal < filesLoaded + 1 then
      .error maxFileCountError
    else
      match read ref with
      | none => .error (fileNotFoundError ref)
      | some frag =>
        if MaxFileSizeBytes < frag.size then
          .error (maxFileSizeError ref.path)
        else if MaxIncludeCountPerFile < frag.includes.length then
          .error maxIncludeCountError
        else
          match resolveList
              (fun fl r => resolveRef read fuel (chain ++ [ref]) (depth + 1) fl r)
              (filesLoaded + 1) frag.includes with
          | .error e => .error e
          | .ok (d, files2) => .ok (mergeDocs d frag.doc, files2)

/-- Modelled from the spec: `MergeConfig` over an injected content reader,
starting at the root path with depth 0, an empty visited chain and no
files loaded. -/
def mergeConfig (read : ConfigReference → Option Fragment)
    (mainConfigPth : String) : Except String Doc :=
  match resolveRef read (MaxIncludeDepth + 1) [] 0 0 { path := mainConfigPth } with
  | .error e => .error e
  | .ok (d, _) => .ok d

/-- A local reference with only a path, as the mock reader keys them. -/
def localRef (p : String) : ConfigReference := { path := p }

/-- A fragment fixture with the given size and local include paths. -/
def mkFrag (size : Nat) (incs : List String) : Fragment :=
  { size := size, includes := incs.map localRef, doc := [] }

/-- Reader fixture: one file of exactly the maximum byte size. -/
def readSizeAtLimit : ConfigReference → Option Fragment := fun ref =>
  if ref.path = "a" then some (mkFrag 1048576 []) else none

/-- Reader fixture: one file of one byte over the maximum size. -/
def readSizeOverLimit : ConfigReference → Option Fragment := fun ref =>
  if ref.path = "a" then some (mkFrag 1048577 []) else none

/-- Reader fixture: a root with exactly ten include entries. -/
def readTenIncludes : ConfigReference → Option Fragment := fun ref =>
  if ref.path = "root" then some (mkFrag 100 (List.replicate 10 "b"))
  else if ref.path = "b" then some (mkFrag 10 [])
  else none

/-- Reader fixture: a root with eleven include entries. -/
def readElevenIncludes : ConfigReference → Option Fragment := fun ref =>
  if ref.path = "root" then some (mkFrag 100 (List.replicate 11 "b"))
  else if ref.path = "b" then some (mkFrag 10 [])
  else none

/-- Reader fixture: a composition of exactly twenty distinct files (root,
a0-a8, b, c0-c8). Unlisted paths resolve to empty fragments; only the
listed twenty are ever loaded. -/
def readTwentyFiles : ConfigReference → Option Fragment := fun ref =>
  if ref.path = "root" then
    some (mkFrag 100 ((List.range 9).map (fun i => "a" ++ toString i) ++ ["b"]))
  else if ref.path = "b" then
    some (mkFrag 100 ((List.range 9).map (fun i => "c" ++ toString i)))
  else
    some (mkFrag 1 [])

/-- Reader fixture: as `readTwentyFiles` with one more distinct file
(c9), twenty-one in total. -/
def readTwentyOneFiles : ConfigReference → Option Fragment := fun ref =>
  if ref.path = "root" then
    some (mkFrag 100 ((List.range 9).map (fun i => "a" ++ toString i) ++ ["b"]))
  else if ref.path = "b" then
    some (mkFrag 100 ((List.range 10).map (fun i => "c" ++ toString i)))
  else
    some (mkFrag 1 [])

/-- Reader fixture: a single-include chain four levels beyond the root. -/
def readDepthFour : ConfigReference → Option Fragment := fun ref =>
  if ref.path = "root" then some (mkFrag 10 ["m1"])
  else if ref.path = "m1" then some (mkFrag 10 ["m2"])
  else if ref.path = "m2" then some (mkFrag 10 ["m3"])
  else if ref.path = "m3" then some (mkFrag 10 ["m4"])
  else if ref.path = "m4" then some (mkFrag 10 [])
  else none

/-- Reader fixture: a single-include chain five levels beyond the root,
the shape of the test `Max include depth is 5`. -/
def readDepthFive : ConfigReference → Option Fragment := fun ref =>
  if ref.path = "root" then some (mkFrag 10 ["m1"])
  else if ref.path = "m1" then some (mkFrag 10 ["m2"])
  else if ref.path = "m2" then some (mkFrag 10 ["m3"])
  else if ref.path = "m3" then some (mkFrag 10 ["m4"])
  else if ref.path = "m4" then some (mkFrag 10 ["m5"])
  else if ref.path = "m5" then some (mkFrag 10 [])
  else none

/-- C7 counterexample -- an inclusion chain five levels beyond the root
does not succeed: it fails with the depth error, exactly as the source
test `Max include depth is 5` (root plus five nested includes) expects
the error `max include depth (5) exceeded`. -/
theorem mergeConfig_five_levels_beyond_root_fails :
    mergeConfig readDepthFive "root" = .error "max include depth (5) exceeded" ∧
      ∀ d, mergeConfig readDepthFive "root" ≠ Except.ok d := by
  refine ⟨rfl, ?_⟩
  intro d h
  have h2 : (Except.error "max include depth (5) exceeded" : Except String Doc) =
      Except.ok d :=
    (show mergeConfig readDepthFive "root" =
      .error "max include depth (5) exceeded" from rfl).symm.trans h
  simp at h2

/-- C7 amended -- each numeric limit is an exact boundary enforced with an
error naming the limit value: a file of exactly 1,048,576 bytes succeeds
while 1,048,577 bytes fails; 10 include entries in one file succeed while
an 11th fails; 20 distinct loaded files succeed while a 21st fails; an
inclusion chain 4 levels beyond the root succeeds while a 5th level
fails. -/
theorem mergeConfig_limit_boundaries :
    mergeConfig readSizeAtLimit "a" = .ok [] ∧
    mergeConfig readSizeOverLimit "a" =
      .error "max file size (1048576 bytes) exceeded in file a" ∧
    mergeConfig readTenIncludes "root" = .ok [] ∧
    mergeConfig readElevenIncludes "root" = .error "max include count (10) exceeded" ∧
    mergeConfig readTwentyFiles "root" = .ok [] ∧
    mergeConfig readTwentyOneFiles "root" = .error "max file count (20) exceeded" ∧
    mergeConfig readDepthFour "root" = .ok [] ∧
    mergeConfig readDepthFive "root" = .error "max include depth (5) exceeded" := by
  refine ⟨rfl, rfl, rfl, rfl, rfl, rfl, rfl, rfl⟩

/-- Include-graph reachability under a reader: `Reaches read a p c` holds
when following successive include entries from `a` visits exactly the
references in `p` (in order) and ends at `c`. -/
inductive Reaches (read : ConfigReference → Option Fragment) :
    ConfigReference → List ConfigReference → ConfigReference → Prop
  | refl (a : ConfigReference) : Reaches read a [] a
  | step {a b c : ConfigReference} {p : List ConfigReference} (frag : Fragment) :
      read a = some frag → b ∈ frag.includes → Reaches read b p c →
      Reaches read a (b :: p) c

/-- The include graph reachable from `root` contains a cycle: some
reachable reference can be left and revisited along a non-empty include
path. -/
def CyclicFrom (read : ConfigReference → Option Fragment)
    (root : ConfigReference) : Prop :=
  ∃ v p q, Reaches read root p v ∧ Reaches read v q v ∧ q ≠ []

/-- Helper: include paths compose. -/
theorem reaches_trans {read : ConfigReference → Option Fragment}
    {a b c : ConfigReference} {p q : List ConfigReference}
    (h1 : Reaches read a p b) (h2 : Reaches read b q c) :
    Reaches read a (p ++ q) c := by
  induction h1 with
  | refl a => simpa using h2
  | step frag hread hmem _ ih => exact .step frag hread hmem (ih h2)

/-- Helper: a non-empty include loop yields reachable include paths of
every length. -/
theorem reaches_pump {read : ConfigReference → Option Fragment}
    {v : ConfigReference} {q : List ConfigReference}
    (h : Reaches read v q v) (hq : q ≠ []) :
    ∀ n : Nat, ∃ p, Reaches read v p v ∧ n ≤ p.length := by
  intro n
  induction n with
  | zero => exact ⟨[], .refl v, by simp⟩
  | succ n ih =>
    obtain ⟨p, hp, hlen⟩ := ih
    refine ⟨p ++ q, reaches_trans hp h, ?_⟩
    have hq1 : 1 ≤ q.length := by
      cases q with
      | nil => exact absurd rfl hq
      | cons x xs => simp
    simp only [List.length_append]
    omega

/-- Helper: a successful `resolveList` run resolved every listed entry. -/
theorem resolveList_ok_mem
    {resolve : Nat → ConfigReference → Except String (Doc × Nat)} :
    ∀ (l : List ConfigReference) (files : Nat) (out : Doc × Nat),
      resolveList resolve files l = .ok out →
      ∀ r ∈ l, ∃ files0 out0, resolve files0 r = .ok out0 := by
  intro l
  induction l with
  | nil => intro files out _ r hr; simp at hr
  | cons x xs ih =>
    intro files out h r hr
    unfold resolveList at h
    cases hx : resolve files x with
    | error e => simp [hx] at h
    | ok p =>
      obtain ⟨d, files2⟩ := p
      cases hxs : resolveList resolve files2 xs with
      | error e => simp [hx, hxs] at h
      | ok p2 =>
        rcases List.mem_cons.mp hr with rfl | hmem
        · exact ⟨files, (d, files2), hx⟩
        · exact ih files2 p2 hxs r hmem

/-- Helper: inversion of a successful `resolveRef` call -- the depth check
passed, the reference was readable, and its include list resolved. -/
theorem resolveRef_ok_inv {read : ConfigReference → Option Fragment}
    {fuel : Nat} {chain : List ConfigReference} {depth filesLoaded : Nat}
    {ref : ConfigReference} {out : Doc × Nat}
    (hok : resolveRef read (fuel + 1) chain depth filesLoaded ref = .ok out) :
    depth < MaxIncludeDepth ∧
      ∃ frag, read ref = some frag ∧
        ∃ out2, resolveList
            (fun fl r => resolveRef read fuel (chain ++ [ref]) (depth + 1) fl r)
            (filesLoaded + 1) frag.includes = .ok out2 := by
  unfold resolveRef at hok
  by_cases h1 : ref ∈ chain
  · rw [if_pos h1] at hok; simp at hok
  rw [if_neg h1] at hok
  by_cases h2 : MaxIncludeDepth ≤ depth
  · rw [if_pos h2] at hok; simp at hok
  rw [if_neg h2] at hok
  by_cases h3 : MaxFilesCountTotal < filesLoaded + 1
  · rw [if_pos h3] at hok; simp at hok
  rw [if_neg h3] at hok
  refine ⟨by omega, ?_⟩
  cases hread : read ref with
  | none => simp [hread] at hok
  | some frag =>
    refine ⟨frag, rfl, ?_⟩
    by_cases h4 : MaxFileSizeBytes < frag.size
    · simp [hread, h4] at hok
    by_cases h5 : MaxIncludeCountPerFile < frag.includes.length
    · simp [hread, h4, h5] at hok
    cases hlist : resolveList
        (fun fl r => resolveRef read fuel (chain ++ [ref]) (depth + 1) fl r)
        (filesLoaded + 1) frag.includes with
    | error e => simp [hread, h4, h5, hlist] at hok
    | ok out2 => exact ⟨out2, rfl⟩

/-- Helper: a successful `resolveRef` call bounds every include path
leaving its reference by the remaining allowed depth. -/
theorem resolveRef_ok_reaches_bound (read : ConfigReference → Option Fragment) :
    ∀ (p : List ConfigReference) (fuel : Nat) (chain : List ConfigReference)
      (depth filesLoaded : Nat) (ref c : ConfigReference) (out : Doc × Nat),
      resolveRef read fuel chain depth filesLoaded ref = .ok out →
      Reaches read ref p c → depth + p.length < MaxIncludeDepth := by
  intro p
  induction p with
  | nil =>
    intro fuel chain depth filesLoaded ref c out hok _
    cases fuel with
    | zero => simp [resolveRef] at hok
    | succ fuel =>
      have := (resolveRef_ok_inv hok).1
      simpa using this
  | cons b p2 ih =>
    intro fuel chain depth filesLoaded ref c out hok hreach
    cases fuel with
    | zero => simp [resolveRef] at hok
    | succ fuel =>
      obtain ⟨hdep, frag, hread, out2, hlist⟩ := resolveRef_ok_inv hok
      cases hreach with
      | step frag2 hread2 hmem hrest =>
        rw [hread] at hread2
        obtain rfl : frag = frag2 := Option.some.inj hread2
        obtain ⟨files0, out0, hchild⟩ :=
          resolveList_ok_mem frag.includes (filesLoaded + 1) out2 hlist b hmem
        have := ih fuel (chain ++ [ref]) (depth + 1) files0 b c out0 hchild hrest
        simp only [List.length_cons]
        omega

/-- Reader fixture for the three-file cycle: a includes b, b includes c,
c includes a. -/
def readCycleABC : ConfigReference → Option Fragment := fun ref =>
  if ref.path = "a" then some (mkFrag 10 ["b"])
  else if ref.path = "b" then some (mkFrag 10 ["c"])
  else if ref.path = "c" then some (mkFrag 10 ["a"])
  else none

/-- Reader fixture with a cycle sitting five levels beyond the root:
r includes x1, x1 includes x2, x2 includes x3, x3 includes b, and b and c
include each other. -/
def readDepthCycle : ConfigReference → Option Fragment := fun ref =>
  if ref.path = "r" then some (mkFrag 10 ["x1"])
  else if ref.path = "x1" then some (mkFrag 10 ["x2"])
  else if ref.path = "x2" then some (mkFrag 10 ["x3"])
  else if ref.path = "x3" then some (mkFrag 10 ["b"])
  else if ref.path = "b" then some (mkFrag 10 ["c"])
  else if ref.path = "c" then some (mkFrag 10 ["b"])
  else none

/-- C8 counterexample -- a composition whose include graph contains the
cycle b-c-b reached five levels beyond the root fails with the depth
error, not with a cycle error naming a visited chain: the repeat is never
reached because the depth limit preempts it. -/
theorem mergeConfig_cycle_beyond_depth_not_cycle_error :
    CyclicFrom readDepthCycle { path := "r" } ∧
    mergeConfig readDepthCycle "r" = .error "max include depth (5) exceeded" ∧
    "max include depth (5) exceeded" ≠
      "circular reference detected: r -> x1 -> x2 -> x3 -> b -> c -> b" ∧
    "max include depth (5) exceeded" ≠ "circular reference detected: b -> c -> b" := by
  refine ⟨?_, rfl, by decide, by decide⟩
  refine ⟨{ path := "b" },
    [{ path := "x1" }, { path := "x2" }, { path := "x3" }, { path := "b" }],
    [{ path := "c" }, { path := "b" }], ?_, ?_, by simp⟩
  · exact Reaches.step _ rfl (by decide)
      (Reaches.step _ rfl (by decide)
        (Reaches.step _ rfl (by decide)
          (Reaches.step _ rfl (by decide) (Reaches.refl _))))
  · exact Reaches.step _ rfl (by decide)
      (Reaches.step _ rfl (by decide) (Reaches.refl _))

/-- C8 amended -- a composition whose reachable include graph contains a
cycle never succeeds (the total model always terminates, so it never loops
forever either); when the repeat is reached within the limits the failure
is the cycle error naming the full visited chain, as in the concrete
a-b-c-a composition, whose error names the chain a -> b -> c -> a. -/
theorem mergeConfig_cycle_never_succeeds :
    (∀ (read : ConfigReference → Option Fragment) (mainConfigPth : String),
      CyclicFrom read { path := mainConfigPth } →
      ∀ d, mergeConfig read mainConfigPth ≠ Except.ok d) ∧
    mergeConfig readCycleABC "a" =
      .error "circular reference detected: a -> b -> c -> a" := by
  constructor
  · rintro read pth ⟨v, p, q, hp, hq, hne⟩ d hok
    unfold mergeConfig at hok
    cases hres : resolveRef read (MaxIncludeDepth + 1) [] 0 0 { path := pth } with
    | error e => rw [hres] at hok; simp at hok
    | ok out =>
      obtain ⟨p6, hp6, hlen⟩ := reaches_pump hq hne MaxIncludeDepth
      have hfull : Reaches read { path := pth } (p ++ p6) v := reaches_trans hp hp6
      have hbound := resolveRef_ok_reaches_bound read (p ++ p6)
        (MaxIncludeDepth + 1) [] 0 0 { path := pth } v out hres hfull
      simp only [List.length_append] at hbound
      omega
  · rfl

/-- Witness for C8 at the concrete three-file cycle. -/
theorem mergeConfig_cycle_never_succeeds_witness :
    mergeConfig readCycleABC "a" ≠ Except.ok [] := by
  apply mergeConfig_cycle_never_succeeds.1 readCycleABC "a"
  refine ⟨{ path := "a" }, [],
    [{ path := "b" }, { path := "c" }, { path := "a" }], Reaches.refl _, ?_, by simp⟩
  exact Reaches.step _ rfl (by decide)
    (Reaches.step _ rfl (by decide)
      (Reaches.step _ rfl (by decide) (Reaches.refl _)))
